import Mathlib

/-!
Verification of the garden-style questionnaire agent.

The agent is a stateless, keyword-driven classifier: it receives the full
conversation (a list of role-tagged messages), extracts preference signal
from the concatenated lowercased user text, decides whether the
conversation is complete, and either asks the next question or emits a
synthesized garden summary.  This file gives a shallow embedding of that
logic over `List Char` strings and proves properties of it.
-/

set_option maxRecDepth 4000

/-- Strings are modelled as lists of characters. -/
abbrev Str := List Char

/-- Convert a Lean string literal to the character-list representation. -/
def S (s : String) : Str := s.toList

/-- Per-character lowercasing, modelling `String.prototype.toLowerCase`. -/
def lower (s : Str) : Str := s.map Char.toLower

/-- Does `s` start with `p`?  (Models anchored literal matching.) -/
def startsWith : Str → Str → Bool
  | _, [] => true
  | [], _ :: _ => false
  | c :: s, d :: p => c == d && startsWith s p

/-- Does `s` contain `p` as a contiguous substring?
Models `String.prototype.includes` / an unanchored literal regex test. -/
def containsStr : Str → Str → Bool
  | [], p => startsWith [] p
  | s@(_ :: s'), p => startsWith s p || containsStr s' p

/-- Left-to-right scan counting non-overlapping matches of `needle`;
`skip` characters are consumed before scanning resumes (the remainder of
a match already counted). -/
def occAux (needle : Str) : Nat → Str → Nat
  | _, [] => 0
  | skip + 1, _ :: rest => occAux needle skip rest
  | 0, c :: rest =>
    if startsWith (c :: rest) needle then 1 + occAux needle (needle.length - 1) rest
    else occAux needle 0 rest

/-- Number of non-overlapping occurrences of `needle` in `text`, scanning
left to right — models `occurrences` in the source (a global literal
regex match count). -/
def occurrences (text needle : Str) : Nat := occAux needle 0 text

/-- `Array.prototype.join(sep)` on a list of strings. -/
def joinSep (sep : Str) : List Str → Str
  | [] => []
  | [x] => x
  | x :: y :: xs => x ++ sep ++ joinSep sep (y :: xs)

/-! ## Data model -/

/-- Message roles. -/
inductive Role where
  | user
  | assistant
deriving DecidableEq, Repr

/-- A chat message: `{ role, content }`. -/
structure Message where
  role : Role
  content : Str
deriving DecidableEq, Repr

/-- The eight question topics. -/
inductive QuestionKey where
  | feels
  | style
  | plants
  | use
  | maintenance
  | sun
  | climate
  | constraints
deriving DecidableEq, Repr

/-- The fixed default asking sequence `QUESTION_ORDER`. -/
def QUESTION_ORDER : List QuestionKey :=
  [.feels, .style, .plants, .use, .maintenance, .sun, .climate, .constraints]

/-- A question record `{ key, text }`. -/
structure Question where
  key : QuestionKey
  text : Str
deriving DecidableEq, Repr

/-- The `QUESTIONS` table. -/
def QUESTIONS : QuestionKey → Question
  | .feels => ⟨.feels, S "Q-feels: What feelings should your garden evoke? (e.g., calm, cozy, vibrant, playful, refined)"⟩
  | .style => ⟨.style, S "Q-style: What garden styles do you gravitate to? (modern, cottage, Mediterranean, Japanese/Zen, desert/xeriscape, tropical, native/wildlife)"⟩
  | .plants => ⟨.plants, S "Q-plants: Any plants you love or dislike? (e.g., lavender, grasses, succulents, ferns, roses, palms)"⟩
  | .use => ⟨.use, S "Q-use: How will you use the space? (entertaining, dining, kids, pets, quiet reading, growing food)"⟩
  | .maintenance => ⟨.maintenance, S "Q-maintenance: How much upkeep is realistic? (low, medium, high)"⟩
  | .sun => ⟨.sun, S "Q-sun: What sunlight do you get? (full sun, partial shade, mostly shade)"⟩
  | .climate => ⟨.climate, S "Q-climate: Where are you located or what climate/USDA zone? (coastal, desert, tropical, temperate, cold)"⟩
  | .constraints => ⟨.constraints, S "Q-constraints: Any constraints? (small space, slope, HOA, water restrictions, budget)"⟩

/-- The seven style categories, identified by their table keys. -/
inductive Style where
  | modernMinimal
  | cottageRomantic
  | mediterraneanDry
  | japaneseZen
  | desertXeriscape
  | tropicalLush
  | nativeWildlife
deriving DecidableEq, Repr

/-- Key insertion order of the `STYLE_KEYWORDS` table. -/
def STYLE_ORDER : List Style :=
  [.modernMinimal, .cottageRomantic, .mediterraneanDry, .japaneseZen,
   .desertXeriscape, .tropicalLush, .nativeWildlife]

/-- Display name of each style (the table key string). -/
def styleName : Style → Str
  | .modernMinimal => S "Modern Minimal"
  | .cottageRomantic => S "Cottage Romantic"
  | .mediterraneanDry => S "Mediterranean Dry"
  | .japaneseZen => S "Japanese Zen"
  | .desertXeriscape => S "Desert Xeriscape"
  | .tropicalLush => S "Tropical Lush"
  | .nativeWildlife => S "Native Wildlife"

/-- Position of each style in the fixed key insertion order. -/
def styleIdx : Style → Nat
  | .modernMinimal => 0
  | .cottageRomantic => 1
  | .mediterraneanDry => 2
  | .japaneseZen => 3
  | .desertXeriscape => 4
  | .tropicalLush => 5
  | .nativeWildlife => 6

/-- The `STYLE_KEYWORDS` table. -/
def STYLE_KEYWORDS : Style → List Str
  | .modernMinimal => [S "modern", S "minimal", S "clean", S "structured", S "architectural", S "contemporary"]
  | .cottageRomantic => [S "cottage", S "romantic", S "whimsical", S "english", S "abundant", S "flowers"]
  | .mediterraneanDry => [S "mediterranean", S "olive", S "terracotta", S "dry", S "drought", S "sun-baked"]
  | .japaneseZen => [S "japanese", S "zen", S "calm", S "raked", S "maple", S "stone", S "moss"]
  | .desertXeriscape => [S "desert", S "xeriscape", S "succulent", S "cactus", S "agave"]
  | .tropicalLush => [S "tropical", S "lush", S "palms", S "banana", S "exotic"]
  | .nativeWildlife => [S "native", S "wildlife", S "pollinator", S "meadow", S "prairie"]

/-- The `MOOD_WORDS` list. -/
def MOOD_WORDS : List Str :=
  [S "calm", S "cozy", S "vibrant", S "playful", S "refined", S "relaxed", S "elegant",
   S "wild", S "formal", S "romantic", S "rustic", S "serene", S "lush", S "minimal"]

/-- The `USAGE_WORDS` list. -/
def USAGE_WORDS : List Str :=
  [S "entertaining", S "dining", S "kids", S "children", S "pets", S "dog", S "cat",
   S "reading", S "quiet", S "food", S "vegetable", S "veggie", S "bbq", S "grill",
   S "firepit", S "hot tub", S "pool"]

/-- The `CONSTRAINT_WORDS` list. -/
def CONSTRAINT_WORDS : List Str :=
  [S "small", S "tiny", S "narrow", S "slope", S "steep", S "hoa", S "water restriction",
   S "budget", S "wind", S "deer", S "rabbit", S "privacy"]

/-- The `SUN_MAP` table, in key insertion order. -/
def SUN_MAP : List (Str × Str) :=
  [(S "full sun", S "full sun"),
   (S "lots of sun", S "full sun"),
   (S "sunny", S "full sun"),
   (S "partial shade", S "partial shade"),
   (S "part shade", S "partial shade"),
   (S "dappled", S "partial shade"),
   (S "mostly shade", S "shade"),
   (S "shade", S "shade")]

/-- The `CLIMATE_WORDS` table, in key insertion order. -/
def CLIMATE_WORDS : List (Str × List Str) :=
  [(S "coastal", [S "coastal", S "salt", S "ocean"]),
   (S "desert", [S "desert", S "arid", S "drought"]),
   (S "tropical", [S "tropical", S "humid", S "rainforest"]),
   (S "temperate", [S "temperate", S "mild"]),
   (S "cold", [S "cold", S "alpine", S "snow"])]

/-- The `PLANT_SYNONYMS` table, in key insertion order. -/
def PLANT_SYNONYMS : List (Str × List Str) :=
  [(S "lavender", [S "lavender"]),
   (S "grasses", [S "grass", S "grasses", S "panicum", S "miscanthus"]),
   (S "succulents", [S "succulent", S "succulents", S "agave", S "aloe", S "sedum"]),
   (S "ferns", [S "fern", S "ferns"]),
   (S "roses", [S "rose", S "roses"]),
   (S "palms", [S "palm", S "palms"]),
   (S "maples", [S "maple", S "acer"]),
   (S "conifers", [S "pine", S "cedar", S "spruce", S "juniper"]),
   (S "wildflowers", [S "wildflower", S "echinacea", S "rudbeckia", S "salvia"])]

/-- Alternatives of the kids/pets presence regex. -/
def KIDS_PETS_WORDS : List Str :=
  [S "kid", S "child", S "children", S "pet", S "dog", S "cat"]

/-- Alternatives of the end-of-conversation regex. -/
def END_PHRASES : List Str :=
  [S "that\x27s all", S "that is all", S "enough", S "done", S "finish"]

/-- The derived `Analysis` record. -/
structure Analysis where
  styles : Style → Nat
  mood : List Str
  likedPlants : List Str
  dislikedPlants : List Str
  usage : List Str
  maintenance : Option Str
  sunlight : Option Str
  climate : Option Str
  constraints : List Str
  hasKidsOrPets : Bool

/-! ## Analyzer -/

/-- Capitalize the first character — models `cap`. -/
def cap : Str → Str
  | [] => []
  | c :: s => c.toUpper :: s

/-- Concatenated lowercased user-authored text, joined with newlines. -/
def userText (ms : List Message) : Str :=
  joinSep (S "\n") ((ms.filter (fun m => m.role == Role.user)).map (fun m => lower m.content))

/-- Keyword-count score of one style over the text. -/
def styleScore (text : Str) (st : Style) : Nat :=
  ((STYLE_KEYWORDS st).map (fun w => occurrences text w)).sum

/-- Maintenance extraction: three regex alternations tested in priority order. -/
def maintenanceOf (text : Str) : Option Str :=
  if containsStr text (S "low maintenance") || containsStr text (S "minimal maintenance") ||
     containsStr text (S "no maintenance") || containsStr text (S "low upkeep") then
    some (S "low")
  else if containsStr text (S "medium maintenance") || containsStr text (S "some upkeep") then
    some (S "medium")
  else if containsStr text (S "high maintenance") || containsStr text (S "intensive maintenance") ||
          containsStr text (S "love gardening") then
    some (S "high")
  else none

/-- Sunlight extraction: iterate `SUN_MAP` in insertion order, the last
matching phrase overwriting earlier matches. -/
def sunlightOf (text : Str) : Option Str :=
  SUN_MAP.foldl (fun acc e => if containsStr text e.1 then some e.2 else acc) none

/-- Climate extraction: same overwrite behaviour as sunlight. -/
def climateOf (text : Str) : Option Str :=
  CLIMATE_WORDS.foldl
    (fun acc e => if e.2.any (fun w => containsStr text w) then some e.1 else acc) none

/-- Liked-plant test for one synonym table entry. -/
def likesEntry (text : Str) (e : Str × List Str) : Bool :=
  e.2.any (fun w =>
    containsStr text (S "love " ++ w) || containsStr text (S "like " ++ w) || containsStr text w)

/-- Disliked-plant test for one synonym table entry. -/
def dislikesEntry (text : Str) (e : Str × List Str) : Bool :=
  e.2.any (fun w =>
    containsStr text (S "dislike " ++ w) || containsStr text (S "hate " ++ w) ||
    containsStr text (S "avoid " ++ w))

/-- Liked plants, in `PLANT_SYNONYMS` insertion order, capitalized. -/
def likedPlantsOf (text : Str) : List Str :=
  (PLANT_SYNONYMS.filter (fun e => likesEntry text e)).map (fun e => cap e.1)

/-- Disliked plants, in `PLANT_SYNONYMS` insertion order, capitalized. -/
def dislikedPlantsOf (text : Str) : List Str :=
  (PLANT_SYNONYMS.filter (fun e => dislikesEntry text e)).map (fun e => cap e.1)

/-- Signal extraction from the concatenated lowercased user text. -/
def analyzeText (text : Str) : Analysis where
  styles := styleScore text
  mood := (MOOD_WORDS.filter (fun w => containsStr text w)).map cap
  likedPlants := likedPlantsOf text
  dislikedPlants := dislikedPlantsOf text
  usage := (USAGE_WORDS.filter (fun w => containsStr text w)).map cap
  maintenance := maintenanceOf text
  sunlight := sunlightOf text
  climate := climateOf text
  constraints := (CONSTRAINT_WORDS.filter (fun w => containsStr text w)).map cap
  hasKidsOrPets := KIDS_PETS_WORDS.any (fun w => containsStr text w)

/-- `analyze`: signal extraction from the full message list. -/
def analyze (ms : List Message) : Analysis :=
  analyzeText (userText ms)

/-! ## Question selection -/

/-- Insert into an insertion-ordered set (JS `Set.prototype.add`). -/
def addKey (asked : List QuestionKey) (k : QuestionKey) : List QuestionKey :=
  if k ∈ asked then asked else asked ++ [k]

/-- Is `c` a word character (`\w`)? -/
def isWordChar (c : Char) : Bool := c.isAlphanum || c == '_'

/-- Map a captured tag to a question key when it is a key of `QUESTIONS`. -/
def keyFromName (w : Str) : Option QuestionKey :=
  if w = S "feels" then some .feels
  else if w = S "style" then some .style
  else if w = S "plants" then some .plants
  else if w = S "use" then some .use
  else if w = S "maintenance" then some .maintenance
  else if w = S "sun" then some .sun
  else if w = S "climate" then some .climate
  else if w = S "constraints" then some .constraints
  else none

/-- Match `^Q-(\w+):` against a message and return the recognized key. -/
def parseAskedKey (content : Str) : Option QuestionKey :=
  match content with
  | 'Q' :: '-' :: rest =>
    match rest.takeWhile isWordChar, rest.dropWhile isWordChar with
    | [], _ => none
    | w, ':' :: _ => keyFromName w
    | _, _ => none
  | _ => none

/-- One step of the asked-key scan: record the tag of an assistant message. -/
def askedStep (asked : List QuestionKey) (m : Message) : List QuestionKey :=
  if m.role == Role.assistant then
    match parseAskedKey m.content with
    | some k => addKey asked k
    | none => asked
  else asked

/-- Reconstruct the asked-key set by scanning prior assistant messages. -/
def getAskedKeys (ms : List Message) : List QuestionKey :=
  ms.foldl askedStep []

/-- Adaptive next-question policy. -/
def chooseNextKey (asked : List QuestionKey) (a : Analysis) : QuestionKey :=
  if (a.likedPlants.isEmpty && a.dislikedPlants.isEmpty) = true ∧ QuestionKey.plants ∉ asked then
    .plants
  else if a.hasKidsOrPets = true ∧ QuestionKey.use ∉ asked then .use
  else if a.sunlight = none ∧ QuestionKey.sun ∉ asked then .sun
  else if a.maintenance = none ∧ QuestionKey.maintenance ∉ asked then .maintenance
  else if a.climate = none ∧ QuestionKey.climate ∉ asked then .climate
  else
    match QUESTION_ORDER.find? (fun k => decide (k ∉ asked)) with
    | some k => k
    | none => .constraints

/-! ## Summarizer -/

/-- The final `GardenSummary` record. -/
structure GardenSummary where
  styles : List Str
  moodWords : List Str
  plantPalette : List Str
  features : List Str
  usagePlan : List Str
  sunlight : Option Str
  maintenance : Option Str
  climate : Option Str
  notes : List Str
deriving DecidableEq, Repr

/-- Insert into an insertion-ordered set (JS `Set.prototype.add`, via `add`). -/
def addItem (items : List Str) (v : Str) : List Str :=
  if v ∈ items then items else items ++ [v]

/-- Stable insertion into a list sorted by strictly descending-or-equal score. -/
def insertDesc (x : Style × Nat) : List (Style × Nat) → List (Style × Nat)
  | [] => [x]
  | y :: ys => if y.2 ≤ x.2 then x :: y :: ys else y :: insertDesc x ys

/-- Stable sort by score descending — models the JS stable
`sort((a, b) => b[1] - a[1])` on the entries array. -/
def sortDesc : List (Style × Nat) → List (Style × Nat)
  | [] => []
  | x :: xs => insertDesc x (sortDesc xs)

/-- Fixed plant-suggestion strings per selected style. -/
def stylePaletteItems (style : Str) : List Str :=
  if style = S "Modern Minimal" then
    [S "Evergreen structure: Buxus balls, Podocarpus, clipped yew",
     S "Grasses: Miscanthus, Pennisetum for movement",
     S "Monochrome perennials: White Agapanthus, Salvia, Gaura"]
  else if style = S "Cottage Romantic" then
    [S "Perennials: Lavender, Nepeta, Salvia, Echinacea, Foxglove",
     S "Roses and climbers: David Austin roses, Clematis",
     S "Soft grasses: Deschampsia, Stipa tenuissima"]
  else if style = S "Mediterranean Dry" then
    [S "Drought-tolerant: Olive, Rosemary, Lavender, Santolina",
     S "Silvery foliage: Helichrysum, Artemisia",
     S "Herbs and citrus in terracotta"]
  else if style = S "Japanese Zen" then
    [S "Structure: Japanese maple, Bamboo (clumping), Pine cloud-pruned",
     S "Ground: Moss, Ophiopogon, Ferns",
     S "Accents: Irises, Azaleas"]
  else if style = S "Desert Xeriscape" then
    [S "Succulents: Agave, Aloe, Echeveria, Opuntia",
     S "Cacti & yucca; gravel mulch",
     S "Heat-lovers: Red hot poker, Verbena bonariensis"]
  else if style = S "Tropical Lush" then
    [S "Foliage drama: Bananas, Colocasia, Alocasia, Philodendron (hardy types)",
     S "Palms: Trachycarpus, Chamaerops",
     S "Bold color: Canna, Hibiscus"]
  else if style = S "Native Wildlife" then
    [S "Natives: Echinacea, Rudbeckia, Solidago, Asclepias",
     S "Grasses: Little bluestem, Switchgrass",
     S "Shrubs: Serviceberry, Viburnum"]
  else []

/-- The palette set at the point just before the disliked-plant deletions
in `buildPalette`: style suggestions, conditional additions, then liked
plants added. -/
def paletteBeforeDislikes (styles : List Str) (a : Analysis) : List Str :=
  let items := styles.foldl (fun acc s => (stylePaletteItems s).foldl addItem acc) []
  let items :=
    if a.sunlight = some (S "shade") then
      addItem items (S "Shade lovers: Hosta, Ferns, Heuchera, Astilbe, Hellebore")
    else if a.sunlight = some (S "partial shade") then
      addItem items (S "Part-shade adaptable: Hydrangea, Heucherella, Brunnera, Tiarella")
    else if a.sunlight = some (S "full sun") then
      addItem items (S "Sun lovers: Salvia, Nepeta, Gaura, Coreopsis, Achillea")
    else items
  let items :=
    if a.maintenance = some (S "low") then
      addItem items (S "Low-maintenance backbone: evergreen shrubs, groundcovers, mulch")
    else items
  let items :=
    if a.climate = some (S "coastal") then
      addItem items (S "Coastal tolerant: Armeria, Sea kale, Escallonia")
    else items
  let items :=
    if a.climate = some (S "cold") then
      addItem items (S "Cold-hardy focus: conifers, grasses, perennials to zone")
    else items
  let items :=
    if a.climate = some (S "desert") then
      addItem items (S "Ultra drought: Agastache, Salvia greggii, Teucrium")
    else items
  a.likedPlants.foldl addItem items

/-- `buildPalette`: style suggestions, conditional additions, then liked
plants added and disliked plant names deleted. -/
def buildPalette (styles : List Str) (a : Analysis) : List Str :=
  a.dislikedPlants.foldl List.erase (paletteBeforeDislikes styles a)

/-- `buildFeatures`: fixed per-style feature strings plus conditional additions. -/
def buildFeatures (styles : List Str) (a : Analysis) : List Str :=
  let items : List Str := []
  let items :=
    if (S "Modern Minimal") ∈ styles then
      addItem items (S "Clean pavers with steel edging and lighting")
    else items
  let items :=
    if (S "Cottage Romantic") ∈ styles then
      addItem items (S "Meandering path, arch with climbers, rustic seating")
    else items
  let items :=
    if (S "Mediterranean Dry") ∈ styles then
      addItem items (S "Gravel terrace, terracotta pots, simple pergola")
    else items
  let items :=
    if (S "Japanese Zen") ∈ styles then
      addItem items (S "Stone basin, gravel raked area, timber deck")
    else items
  let items :=
    if (S "Desert Xeriscape") ∈ styles then
      addItem items (S "Rock garden mounds, boulders, decomposed granite")
    else items
  let items :=
    if (S "Tropical Lush") ∈ styles then
      addItem items (S "Shaded seating, water feature, layered canopy")
    else items
  let items :=
    if (S "Native Wildlife") ∈ styles then
      addItem items (S "Pollinator bed, bird bath, meadow edge")
    else items
  let items :=
    if a.maintenance = some (S "low") then
      addItem items (S "Drip irrigation and weed-suppressing mulch")
    else items
  let items :=
    if a.sunlight = some (S "full sun") then
      addItem items (S "Shade sail or pergola for hot afternoons")
    else items
  let items :=
    if a.hasKidsOrPets then
      addItem items (S "Durable lawn alternative and pet-safe, kid-friendly plants")
    else items
  let items :=
    if a.usage.any (fun u =>
        [S "entertain", S "dining", S "bbq", S "grill", S "firepit", S "hot tub", S "pool",
         S "reading", S "quiet", S "food", S "vegetable"].any
          (fun w => containsStr (lower u) w)) then
      a.usage.foldl
        (fun acc u =>
          let acc :=
            if [S "entertain", S "dining", S "bbq", S "grill"].any
                (fun w => containsStr (lower u) w) then
              addItem acc (S "Dining terrace near kitchen and grill zone")
            else acc
          let acc :=
            if containsStr (lower u) (S "firepit") then
              addItem acc (S "Fire pit with circular seating")
            else acc
          let acc :=
            if [S "hot tub", S "pool"].any (fun w => containsStr (lower u) w) then
              addItem acc (S "Privacy planting around water features")
            else acc
          let acc :=
            if [S "reading", S "quiet"].any (fun w => containsStr (lower u) w) then
              addItem acc (S "Quiet nook with bench and screening")
            else acc
          if [S "food", S "vegetable", S "veggie"].any (fun w => containsStr (lower u) w) then
            addItem acc (S "Compact raised beds for edibles")
          else acc)
        items
    else items
  items

/-- `buildUsage`: matched usage set, kids/pets note, default fallback. -/
def buildUsage (a : Analysis) : List Str :=
  let out := a.usage.foldl addItem []
  let out :=
    if a.hasKidsOrPets then addItem out (S "Safe play and pet circulation considered") else out
  if out.isEmpty then addItem out (S "Relaxation and light entertaining") else out

/-- `synthesizeSummary`: rank styles, fall back on empty score, and
assemble the final summary. -/
def synthesizeSummary (a : Analysis) : GardenSummary :=
  let stylesRanked := sortDesc (STYLE_ORDER.map (fun st => (st, a.styles st)))
  let top := ((stylesRanked.filter (fun e => 0 < e.2)).take 2).map (fun e => styleName e.1)
  let fallback := if top.isEmpty then [S "Contemporary Natural"] else top
  let notes :=
    (if a.dislikedPlants.isEmpty then []
     else [S "Avoid: " ++ joinSep (S ", ") a.dislikedPlants]) ++
    (if a.constraints.isEmpty then []
     else [S "Constraints: " ++ joinSep (S ", ") a.constraints])
  { styles := fallback
    moodWords := if a.mood.isEmpty then [S "Calm", S "Welcoming"] else a.mood
    plantPalette := buildPalette fallback a
    features := buildFeatures fallback a
    usagePlan := buildUsage a
    sunlight := a.sunlight
    maintenance := a.maintenance
    climate := a.climate
    notes := notes }

/-! ## Agent -/

/-- The request/response result record. -/
structure AgentResult where
  done : Bool
  nextQuestion : Option Str
  summary : Option GardenSummary
deriving DecidableEq, Repr

/-- Does the user text contain an end-of-conversation phrase? -/
def hasEndPhrase (text : Str) : Bool :=
  END_PHRASES.any (fun p => containsStr text p)

/-- `runAgent`: completion check, then summary or next question. -/
def runAgent (ms : List Message) : AgentResult :=
  let asked := getAskedKeys ms
  let a := analyze ms
  let text := userText ms
  if hasEndPhrase text = true ∨ 6 ≤ asked.length then
    { done := true, summary := some (synthesizeSummary a), nextQuestion := none }
  else
    { done := false, nextQuestion := some (QUESTIONS (chooseNextKey asked a)).text,
      summary := none }

/-! ## Specification-side ranking definition

`sortLex`/`stylesSpec` follow the wording of the spec for the summary style
ranking — "top 2 by score, tie-break by fixed key insertion order,
empty-score fallback to a default label" — as an independent definition
to be compared with the stable sort of the implementation. -/

/-- Insertion w.r.t. the ranking order of the spec: score descending, ties
broken by the fixed key insertion order. -/
def insertLex (x : Style × Nat) : List (Style × Nat) → List (Style × Nat)
  | [] => [x]
  | y :: ys =>
    if y.2 < x.2 ∨ (x.2 = y.2 ∧ styleIdx x.1 ≤ styleIdx y.1) then x :: y :: ys
    else y :: insertLex x ys

/-- Sort by the ranking order of the spec. -/
def sortLex : List (Style × Nat) → List (Style × Nat)
  | [] => []
  | x :: xs => insertLex x (sortLex xs)

/-- The description the spec gives of the summary style list: the styles with
strictly positive score, ordered by score descending with ties broken by
key insertion order, truncated to two, with the default label fallback. -/
def stylesSpec (a : Analysis) : List Str :=
  let pos := (STYLE_ORDER.map (fun st => (st, a.styles st))).filter (fun e => 0 < e.2)
  if pos.isEmpty then [S "Contemporary Natural"]
  else ((sortLex pos).take 2).map (fun e => styleName e.1)

/-! ## Concrete conversations used as test inputs -/

/-- A user who likes cottage style but hates roses. -/
def exC1 : List Message := [⟨.user, S "cottage romantic, i hate roses"⟩]

/-- A user mentioning both a full-sun phrase and a shade phrase. -/
def exC2 : List Message := [⟨.user, S "full sun but mostly shade"⟩]

/-- A user ending the conversation by signal phrase. -/
def exC3 : List Message := [⟨.user, S "ok that\x27s all"⟩]

/-- A user message containing the end phrase "done". -/
def exC4 : List Message := [⟨.user, S "done"⟩]

/-- A further turn appended after the conversation of `exC4`. -/
def exC4ext : List Message := [⟨.user, S "now about the lawn"⟩]

/-- An assistant-only conversation in which "plants" was already asked. -/
def exC6 : List Message := [⟨.assistant, S "Q-plants: any favorites?"⟩]

/-- The style-scoring example conversation. -/
def exC7 : List Message := [⟨.user, S "I love modern minimal clean lines"⟩]

/-- A single-user-message conversation. -/
def exC8a : List Message := [⟨.user, S "i want a calm garden"⟩]

/-- The same user messages as `exC8a`, with an assistant message before. -/
def exC8b : List Message :=
  [⟨.assistant, S "Q-feels: What feelings should your garden evoke?"⟩,
   ⟨.user, S "i want a calm garden"⟩]

/-- A user who dislikes roses. -/
def exC10 : List Message := [⟨.user, S "i hate roses"⟩]

/-! ## Theorems

### String lemmas -/

theorem startsWith_iff (s p : Str) : startsWith s p = true ↔ ∃ t, s = p ++ t := by
  induction p generalizing s with
  | nil => simp [startsWith]
  | cons d p ih =>
    cases s with
    | nil => simp [startsWith]
    | cons c s' =>
      simp only [startsWith, Bool.and_eq_true, beq_iff_eq]
      constructor
      · rintro ⟨rfl, h⟩
        obtain ⟨t, rfl⟩ := (ih s').mp h
        exact ⟨t, rfl⟩
      · rintro ⟨t, ht⟩
        simp only [List.cons_append, List.cons.injEq] at ht
        obtain ⟨rfl, rfl⟩ := ht
        exact ⟨rfl, (ih _).mpr ⟨t, rfl⟩⟩

theorem containsStr_iff (s p : Str) : containsStr s p = true ↔ ∃ u v, s = u ++ p ++ v := by
  induction s with
  | nil =>
    simp only [containsStr, startsWith_iff]
    constructor
    · rintro ⟨t, ht⟩; exact ⟨[], t, ht⟩
    · rintro ⟨u, v, huv⟩
      have : u = [] ∧ p ++ v = [] := by
        cases u with
        | nil => exact ⟨rfl, huv.symm⟩
        | cons a u' => simp at huv
      exact ⟨v, by simpa using this.2.symm ▸ (by simp [this.1] at huv; simp [huv])⟩
  | cons c s' ih =>
    simp only [containsStr, Bool.or_eq_true, startsWith_iff, ih]
    constructor
    · rintro (⟨t, ht⟩ | ⟨u, v, huv⟩)
      · exact ⟨[], t, by simpa using ht⟩
      · exact ⟨c :: u, v, by simp [huv]⟩
    · rintro ⟨u, v, huv⟩
      cases u with
      | nil => exact Or.inl ⟨v, by simpa using huv⟩
      | cons a u' =>
        simp only [List.cons_append, List.cons.injEq] at huv
        exact Or.inr ⟨u', v, huv.2⟩

theorem containsStr_trans {s p q : Str} (h1 : containsStr s p = true)
    (h2 : containsStr p q = true) : containsStr s q = true := by
  rw [containsStr_iff] at h1 h2 ⊢
  obtain ⟨u, v, rfl⟩ := h1
  obtain ⟨a, b, rfl⟩ := h2
  exact ⟨u ++ a, b ++ v, by simp⟩

theorem containsStr_append_right {s p : Str} (t : Str)
    (h : containsStr s p = true) : containsStr (s ++ t) p = true := by
  rw [containsStr_iff] at h ⊢
  obtain ⟨u, v, rfl⟩ := h
  exact ⟨u, v ++ t, by simp⟩

theorem containsStr_of_append_left (a w : Str) : containsStr (a ++ w) w = true := by
  rw [containsStr_iff]
  exact ⟨a, [], by simp⟩

theorem joinSep_append_exists (sep : Str) (us vs : List Str) :
    ∃ t, joinSep sep (us ++ vs) = joinSep sep us ++ t := by
  induction us with
  | nil => exact ⟨joinSep sep vs, by simp [joinSep]⟩
  | cons u us ih =>
    cases us with
    | nil =>
      cases vs with
      | nil => exact ⟨[], by simp [joinSep]⟩
      | cons v vs' => exact ⟨sep ++ joinSep sep (v :: vs'), by simp [joinSep]⟩
    | cons u' us' =>
      obtain ⟨t, ht⟩ := ih
      refine ⟨t, ?_⟩
      simp only [List.cons_append, joinSep] at ht ⊢
      cases h : us' ++ vs with
      | nil =>
        cases us' <;> cases vs <;> simp_all [joinSep]
      | cons z zs =>
        rw [h] at ht
        simp [ht, h]


/-! ### Asked-key and completion lemmas -/

theorem length_le_askedStep (asked : List QuestionKey) (m : Message) :
    asked.length ≤ (askedStep asked m).length := by
  unfold askedStep addKey
  split
  · split
    · split
      · exact Nat.le_refl _
      · simp
    · exact Nat.le_refl _
  · exact Nat.le_refl _

theorem length_le_foldl_askedStep (ext : List Message) (s : List QuestionKey) :
    s.length ≤ (ext.foldl askedStep s).length := by
  induction ext generalizing s with
  | nil => exact Nat.le_refl _
  | cons m ext ih => exact Nat.le_trans (length_le_askedStep s m) (ih _)

theorem getAskedKeys_append (ms ext : List Message) :
    getAskedKeys (ms ++ ext) = ext.foldl askedStep (getAskedKeys ms) := by
  unfold getAskedKeys
  exact List.foldl_append ..

theorem userText_append_exists (ms ext : List Message) :
    ∃ t, userText (ms ++ ext) = userText ms ++ t := by
  unfold userText
  rw [List.filter_append, List.map_append]
  exact joinSep_append_exists ..

theorem runAgent_done_iff (ms : List Message) :
    (runAgent ms).done = true ↔
      hasEndPhrase (userText ms) = true ∨ 6 ≤ (getAskedKeys ms).length := by
  by_cases hc : hasEndPhrase (userText ms) = true ∨ 6 ≤ (getAskedKeys ms).length
  · simp [runAgent, hc]
  · simp [runAgent, hc]

theorem runAgent_eq_of_not_done (ms : List Message)
    (h : ¬(hasEndPhrase (userText ms) = true ∨ 6 ≤ (getAskedKeys ms).length)) :
    runAgent ms =
      ⟨false, some (QUESTIONS (chooseNextKey (getAskedKeys ms) (analyze ms))).text, none⟩ := by
  simp [runAgent, h]

theorem not_done_of_runAgent_done_false (ms : List Message)
    (h : (runAgent ms).done = false) :
    ¬(hasEndPhrase (userText ms) = true ∨ 6 ≤ (getAskedKeys ms).length) := by
  intro hc
  have := (runAgent_done_iff ms).mpr hc
  rw [h] at this
  exact Bool.false_ne_true this

/-! ### Sorting lemmas -/

theorem mem_insertDesc {z x : Style × Nat} {l : List (Style × Nat)} :
    z ∈ insertDesc x l ↔ z = x ∨ z ∈ l := by
  induction l with
  | nil => simp [insertDesc]
  | cons y ys ih =>
    unfold insertDesc
    split
    · simp
    · simp only [List.mem_cons, ih]
      tauto

theorem mem_insertLex {z x : Style × Nat} {l : List (Style × Nat)} :
    z ∈ insertLex x l ↔ z = x ∨ z ∈ l := by
  induction l with
  | nil => simp [insertLex]
  | cons y ys ih =>
    unfold insertLex
    split
    · simp
    · simp only [List.mem_cons, ih]
      tauto

theorem mem_sortLex {z : Style × Nat} {l : List (Style × Nat)} :
    z ∈ sortLex l ↔ z ∈ l := by
  induction l with
  | nil => simp [sortLex]
  | cons x xs ih =>
    simp only [sortLex, mem_insertLex, ih, List.mem_cons]

theorem sorted_insertDesc {x : Style × Nat} {l : List (Style × Nat)}
    (hl : l.Pairwise (fun u v => v.2 ≤ u.2)) :
    (insertDesc x l).Pairwise (fun u v => v.2 ≤ u.2) := by
  induction l with
  | nil => simp [insertDesc]
  | cons y ys ih =>
    rw [List.pairwise_cons] at hl
    unfold insertDesc
    split
    · rename_i h
      rw [List.pairwise_cons]
      refine ⟨?_, List.pairwise_cons.mpr hl⟩
      intro z hz
      rcases List.mem_cons.mp hz with rfl | hz'
      · exact h
      · exact Nat.le_trans (hl.1 z hz') h
    · rename_i h
      rw [List.pairwise_cons]
      refine ⟨?_, ih hl.2⟩
      intro z hz
      rcases mem_insertDesc.mp hz with rfl | hz'
      · exact Nat.le_of_lt (Nat.lt_of_not_le h)
      · exact hl.1 z hz'

theorem sorted_sortDesc (l : List (Style × Nat)) :
    (sortDesc l).Pairwise (fun u v => v.2 ≤ u.2) := by
  induction l with
  | nil => simp [sortDesc]
  | cons x xs ih => exact sorted_insertDesc ih

theorem insertDesc_eq_cons {x : Style × Nat} {l : List (Style × Nat)}
    (h : ∀ z ∈ l, z.2 ≤ x.2) : insertDesc x l = x :: l := by
  cases l with
  | nil => rfl
  | cons y ys => exact if_pos (h y (List.mem_cons_self y ys))

theorem insertDesc_cons (x y : Style × Nat) (ys : List (Style × Nat)) :
    insertDesc x (y :: ys) = if y.2 ≤ x.2 then x :: y :: ys else y :: insertDesc x ys := rfl

theorem filter_insertDesc (p : Style × Nat → Bool) {x : Style × Nat}
    {l : List (Style × Nat)} (hl : l.Pairwise (fun u v => v.2 ≤ u.2)) :
    (insertDesc x l).filter p =
      if p x then insertDesc x (l.filter p) else l.filter p := by
  induction l with
  | nil =>
    cases hp : p x <;> simp [insertDesc, List.filter, hp]
  | cons y ys ih =>
    rw [List.pairwise_cons] at hl
    rw [insertDesc_cons]
    by_cases h : y.2 ≤ x.2
    · have hall : ∀ z ∈ (y :: ys).filter p, z.2 ≤ x.2 := by
        intro z hz
        rcases List.mem_cons.mp (List.mem_of_mem_filter hz) with rfl | hz'
        · exact h
        · exact Nat.le_trans (hl.1 z hz') h
      rw [if_pos h, List.filter_cons]
      cases hp : p x
      · simp [hp]
      · rw [insertDesc_eq_cons hall]
    · rw [if_neg h, List.filter_cons, List.filter_cons, ih hl.2]
      cases hp : p x <;> cases hpy : p y <;>
        simp [hp, hpy, insertDesc_cons, h]

theorem filter_sortDesc (p : Style × Nat → Bool) (l : List (Style × Nat)) :
    (sortDesc l).filter p = sortDesc (l.filter p) := by
  induction l with
  | nil => simp [sortDesc]
  | cons x xs ih =>
    show (insertDesc x (sortDesc xs)).filter p = _
    rw [filter_insertDesc p (sorted_sortDesc xs), ih]
    cases hp : p x <;> simp [List.filter_cons, hp, sortDesc]

theorem insertLex_eq_insertDesc {x : Style × Nat} {l : List (Style × Nat)}
    (h : ∀ y ∈ l, styleIdx x.1 < styleIdx y.1) : insertLex x l = insertDesc x l := by
  induction l with
  | nil => rfl
  | cons y ys ih =>
    have hxy := h y (List.mem_cons_self y ys)
    have hcond : (y.2 < x.2 ∨ (x.2 = y.2 ∧ styleIdx x.1 ≤ styleIdx y.1)) ↔ y.2 ≤ x.2 := by
      constructor
      · rintro (hlt | ⟨heq, _⟩)
        · exact Nat.le_of_lt hlt
        · exact Nat.le_of_eq heq.symm
      · intro hle
        rcases Nat.lt_or_ge y.2 x.2 with hlt | hge
        · exact Or.inl hlt
        · exact Or.inr ⟨Nat.le_antisymm hge hle, Nat.le_of_lt hxy⟩
    unfold insertLex insertDesc
    by_cases hc : y.2 ≤ x.2
    · rw [if_pos (hcond.mpr hc), if_pos hc]
    · rw [if_neg (fun hx => hc (hcond.mp hx)), if_neg hc,
        ih (fun z hz => h z (List.mem_cons_of_mem y hz))]

theorem sortLex_eq_sortDesc {l : List (Style × Nat)}
    (h : l.Pairwise (fun u v => styleIdx u.1 < styleIdx v.1)) : sortLex l = sortDesc l := by
  induction l with
  | nil => rfl
  | cons x xs ih =>
    rw [List.pairwise_cons] at h
    show insertLex x (sortLex xs) = insertDesc x (sortDesc xs)
    rw [ih h.2, insertLex_eq_insertDesc]
    intro y hy
    rw [← ih h.2] at hy
    exact h.1 y (mem_sortLex.mp hy)

theorem sortLex_eq_nil_iff {l : List (Style × Nat)} : sortLex l = [] ↔ l = [] := by
  cases l with
  | nil => simp [sortLex]
  | cons x xs =>
    simp only [sortLex]
    constructor
    · intro h
      cases hs : sortLex xs with
      | nil => rw [hs] at h; simp [insertLex] at h
      | cons y ys =>
        rw [hs] at h
        unfold insertLex at h
        split at h <;> simp_all
    · intro h
      simp at h

theorem entries_pairwise_idx (a : Analysis) :
    (STYLE_ORDER.map (fun st => (st, a.styles st))).Pairwise
      (fun u v => styleIdx u.1 < styleIdx v.1) := by
  rw [List.pairwise_map]
  show List.Pairwise (fun s t => styleIdx s < styleIdx t) STYLE_ORDER
  decide

theorem take_map_sortLex_isEmpty (l : List (Style × Nat)) :
    (((sortLex l).take 2).map (fun e => styleName e.1)).isEmpty = l.isEmpty := by
  cases hl : l with
  | nil => rw [← hl]; rw [show sortLex l = [] from sortLex_eq_nil_iff.mpr hl]; simp [hl]
  | cons x xs =>
    have h1 : sortLex l ≠ [] := fun hc => by
      rw [sortLex_eq_nil_iff] at hc; rw [hl] at hc; exact List.noConfusion hc
    rw [← hl]
    cases h2 : sortLex l with
    | nil => exact absurd h2 h1
    | cons y ys => simp [hl]

/-- C5: `synthesizeSummary` returns as `styles` the at-most-2 positive-score
style names ordered by score descending with ties broken by the fixed key
insertion order (falling back to the single default label), and as
`moodWords` the matched mood set with the fixed default pair as fallback. -/
theorem C5_summary_styles_mood (a : Analysis) :
    (synthesizeSummary a).styles = stylesSpec a ∧
    (synthesizeSummary a).moodWords =
      (if a.mood.isEmpty then [S "Calm", S "Welcoming"] else a.mood) := by
  constructor
  · have hpair :
        ((STYLE_ORDER.map (fun st => (st, a.styles st))).filter
            (fun e => decide (0 < e.2))).Pairwise (fun u v => styleIdx u.1 < styleIdx v.1) :=
      (entries_pairwise_idx a).sublist (List.filter_sublist _)
    have hkey :
        (sortDesc (STYLE_ORDER.map (fun st => (st, a.styles st)))).filter
            (fun e => decide (0 < e.2)) =
          sortLex ((STYLE_ORDER.map (fun st => (st, a.styles st))).filter
            (fun e => decide (0 < e.2))) := by
      rw [filter_sortDesc]
      exact (sortLex_eq_sortDesc hpair).symm
    simp only [synthesizeSummary, stylesSpec]
    rw [hkey, take_map_sortLex_isEmpty]
  · rfl

/-! ### Palette lemmas -/

theorem nodup_addItem {l : List Str} {v : Str} (h : l.Nodup) : (addItem l v).Nodup := by
  unfold addItem
  split
  · exact h
  · rename_i hv
    rw [List.nodup_append]
    refine ⟨h, List.nodup_singleton v, ?_⟩
    intro x hx hmem
    rw [List.mem_singleton] at hmem
    subst hmem
    exact hv hx

theorem nodup_foldl_addItem (vs : List Str) {l : List Str} (h : l.Nodup) :
    (vs.foldl addItem l).Nodup := by
  induction vs generalizing l with
  | nil => exact h
  | cons v vs ih => exact ih (nodup_addItem h)

theorem nodup_ite {c : Prop} [Decidable c] {a b : List Str}
    (ha : a.Nodup) (hb : b.Nodup) : (if c then a else b).Nodup := by
  split <;> assumption

theorem nodup_foldl_styleItems (ss : List Str) {l : List Str} (h : l.Nodup) :
    (ss.foldl (fun acc s => (stylePaletteItems s).foldl addItem acc) l).Nodup := by
  induction ss generalizing l with
  | nil => exact h
  | cons s ss ih => exact ih (nodup_foldl_addItem _ h)

theorem nodup_paletteBeforeDislikes (styles : List Str) (a : Analysis) :
    (paletteBeforeDislikes styles a).Nodup := by
  simp only [paletteBeforeDislikes]
  apply nodup_foldl_addItem
  have h0 := nodup_foldl_styleItems styles List.nodup_nil
  split_ifs <;> (repeat' apply nodup_addItem) <;> exact h0

theorem not_mem_foldl_erase_aux {p : Str} :
    ∀ (ds : List Str) {l : List Str}, p ∉ l → p ∉ ds.foldl List.erase l
  | [], _, h => h
  | _ :: ds, _, h =>
    not_mem_foldl_erase_aux ds (fun hc => h (List.mem_of_mem_erase hc))

theorem not_mem_foldl_erase {p : Str} (ds : List Str) {l : List Str}
    (hn : l.Nodup) (hp : p ∈ ds) : p ∉ ds.foldl List.erase l := by
  induction ds generalizing l with
  | nil => cases hp
  | cons d ds ih =>
    simp only [List.foldl_cons]
    rcases List.mem_cons.mp hp with rfl | hp'
    · apply not_mem_foldl_erase_aux
      intro hc
      exact (hn.mem_erase_iff.mp hc).1 rfl
    · exact ih (hn.erase d) hp'

/-- C1 (amended): every disliked plant name is removed from the final
palette; the deletion removes exactly the entries equal to the
capitalized plant name, so the name itself never survives (while
per-style suggestion strings that merely mention the plant are not
entries equal to the name and are untouched). -/
theorem C1_disliked_name_removed (a : Analysis) (p : Str)
    (h : p ∈ a.dislikedPlants) : p ∉ (synthesizeSummary a).plantPalette := by
  suffices hgen : ∀ ss : List Str, p ∉ buildPalette ss a by exact hgen _
  intro ss
  unfold buildPalette
  exact not_mem_foldl_erase _ (nodup_paletteBeforeDislikes ss a) h

/-- C1 (counterexample): for the conversation `exC1` the analysis dislikes
"Roses" and selects the style "Cottage Romantic", yet the final palette
still contains the roses-derived Cottage Romantic suggestion string —
the claim that no "Roses"-derived entries survive is false. -/
theorem C1_counterexample :
    (S "Roses") ∈ (analyze exC1).dislikedPlants ∧
    (S "Cottage Romantic") ∈ (synthesizeSummary (analyze exC1)).styles ∧
    (S "Roses and climbers: David Austin roses, Clematis") ∈
      (synthesizeSummary (analyze exC1)).plantPalette := by
  decide

/-- C1 (witness): the amended theorem applied to the analysis of `exC1`
and the plant name "Roses". -/
theorem C1_witness :
    (S "Roses") ∈ (analyze exC1).dislikedPlants ∧
    (S "Roses") ∉ (synthesizeSummary (analyze exC1)).plantPalette :=
  ⟨by decide, C1_disliked_name_removed (analyze exC1) (S "Roses") (by decide)⟩

/-- C2: sunlight extraction walks `SUN_MAP` in its fixed insertion order
with the last matching phrase winning; with no matching phrase sunlight
is `none`, and any text containing both "full sun" and "mostly shade"
yields sunlight "shade" (the final "shade" entry matches last). -/
theorem C2_sunlight_last_match (ms : List Message) :
    ((∀ e ∈ SUN_MAP, containsStr (userText ms) e.1 = false) →
      (analyze ms).sunlight = none) ∧
    (containsStr (userText ms) (S "full sun") = true →
      containsStr (userText ms) (S "mostly shade") = true →
      (analyze ms).sunlight = some (S "shade")) := by
  have hs : (analyze ms).sunlight = sunlightOf (userText ms) := rfl
  constructor
  · intro h
    rw [hs]
    have h1 := h (S "full sun", S "full sun") (by decide)
    have h2 := h (S "lots of sun", S "full sun") (by decide)
    have h3 := h (S "sunny", S "full sun") (by decide)
    have h4 := h (S "partial shade", S "partial shade") (by decide)
    have h5 := h (S "part shade", S "partial shade") (by decide)
    have h6 := h (S "dappled", S "partial shade") (by decide)
    have h7 := h (S "mostly shade", S "shade") (by decide)
    have h8 := h (S "shade", S "shade") (by decide)
    simp only [sunlightOf, SUN_MAP, List.foldl_cons, List.foldl_nil]
    simp [h1, h2, h3, h4, h5, h6, h7, h8]
  · intro h1 h2
    rw [hs]
    have hsh : containsStr (userText ms) (S "shade") = true :=
      containsStr_trans h2 (by decide)
    simp only [sunlightOf, SUN_MAP, List.foldl_cons, List.foldl_nil]
    simp [hsh]

/-- C2 (witness): the theorem applied to `exC2`, whose user text contains
both "full sun" and "mostly shade". -/
theorem C2_witness :
    containsStr (userText exC2) (S "full sun") = true ∧
    containsStr (userText exC2) (S "mostly shade") = true ∧
    (analyze exC2).sunlight = some (S "shade") :=
  ⟨by decide, by decide, (C2_sunlight_last_match exC2).2 (by decide) (by decide)⟩

/-- C3: `runAgent` reports `done = true` exactly when an end-of-conversation
phrase occurs in the user text or at least 6 distinct question keys were
already asked; when done it carries a summary and no next question, and
when not done it carries a next question and no summary. -/
theorem C3_runAgent_completion (ms : List Message) :
    ((runAgent ms).done = true ↔
      hasEndPhrase (userText ms) = true ∨ 6 ≤ (getAskedKeys ms).length) ∧
    ((runAgent ms).done = true →
      (runAgent ms).summary.isSome = true ∧ (runAgent ms).nextQuestion = none) ∧
    ((runAgent ms).done = false →
      (runAgent ms).nextQuestion.isSome = true ∧ (runAgent ms).summary = none) := by
  refine ⟨runAgent_done_iff ms, ?_, ?_⟩
  · intro h
    by_cases hc : hasEndPhrase (userText ms) = true ∨ 6 ≤ (getAskedKeys ms).length
    · constructor
      · simp [runAgent, hc]
      · simp [runAgent, hc]
    · exact absurd ((runAgent_done_iff ms).mp h) hc
  · intro h
    have hc := not_done_of_runAgent_done_false ms h
    rw [runAgent_eq_of_not_done ms hc]
    exact ⟨rfl, rfl⟩

/-- C3 (witness): the user message "ok that\x27s all" completes the
conversation by signal even though fewer than 6 keys were asked. -/
theorem C3_witness :
    (getAskedKeys exC3).length < 6 ∧ (runAgent exC3).done = true ∧
    (runAgent exC3).summary.isSome = true ∧ (runAgent exC3).nextQuestion = none := by
  have h := C3_runAgent_completion exC3
  have hd : (runAgent exC3).done = true := h.1.mpr (Or.inl (by decide))
  exact ⟨by decide, hd, (h.2.1 hd).1, (h.2.1 hd).2⟩

/-- C4: completion is monotonic under appending further messages — both
the end-phrase substring signal and the asked-key count are preserved. -/
theorem C4_done_monotone (ms ext : List Message)
    (h : (runAgent ms).done = true) : (runAgent (ms ++ ext)).done = true := by
  rw [runAgent_done_iff] at h ⊢
  rcases h with h | h
  · left
    unfold hasEndPhrase at h ⊢
    rw [List.any_eq_true] at h ⊢
    obtain ⟨p, hp, hc⟩ := h
    obtain ⟨t, ht⟩ := userText_append_exists ms ext
    exact ⟨p, hp, ht ▸ containsStr_append_right t hc⟩
  · right
    rw [getAskedKeys_append]
    exact Nat.le_trans h (length_le_foldl_askedStep ext _)

/-- C4 (witness): the theorem applied to a completed conversation and a
further appended turn. -/
theorem C4_witness :
    (runAgent exC4).done = true ∧ (runAgent (exC4 ++ exC4ext)).done = true :=
  ⟨by decide, C4_done_monotone exC4 exC4ext (by decide)⟩

/-- C6 (counterexample): `exC6` has no user messages, is not complete, yet
its next question is not the "plants" question — "plants" was already
asked by the prior assistant message, so the selector moves on. -/
theorem C6_counterexample :
    exC6.filter (fun m => m.role == Role.user) = [] ∧
    (runAgent exC6).done = false ∧
    (runAgent exC6).nextQuestion ≠ some (QUESTIONS QuestionKey.plants).text := by
  decide

/-- C6 (amended): with no user messages the analysis is all
nulls/zeros/empty collections, and, provided the conversation is not
complete and "plants" was not already asked in prior assistant messages,
the next question is the "plants" question. -/
theorem C6_no_user_messages (ms : List Message)
    (hu : ms.filter (fun m => m.role == Role.user) = []) :
    (∀ st, (analyze ms).styles st = 0) ∧
    (analyze ms).mood = [] ∧
    (analyze ms).likedPlants = [] ∧
    (analyze ms).dislikedPlants = [] ∧
    (analyze ms).usage = [] ∧
    (analyze ms).constraints = [] ∧
    (analyze ms).maintenance = none ∧
    (analyze ms).sunlight = none ∧
    (analyze ms).climate = none ∧
    (analyze ms).hasKidsOrPets = false ∧
    ((runAgent ms).done = false → QuestionKey.plants ∉ getAskedKeys ms →
      (runAgent ms).nextQuestion = some (QUESTIONS QuestionKey.plants).text) := by
  have htext : userText ms = [] := by
    unfold userText
    rw [hu]
    rfl
  have ha : analyze ms = analyzeText [] := by
    unfold analyze
    rw [htext]
  refine ⟨?_, ?_, ?_, ?_, ?_, ?_, ?_, ?_, ?_, ?_, ?_⟩
  · intro st
    rw [ha]
    cases st <;> rfl
  · rw [ha]; rfl
  · rw [ha]; rfl
  · rw [ha]; rfl
  · rw [ha]; rfl
  · rw [ha]; rfl
  · rw [ha]; rfl
  · rw [ha]; rfl
  · rw [ha]; rfl
  · rw [ha]; rfl
  · intro hdone hplants
    have hc := not_done_of_runAgent_done_false ms hdone
    rw [runAgent_eq_of_not_done ms hc]
    have hsel : chooseNextKey (getAskedKeys ms) (analyze ms) = QuestionKey.plants := by
      rw [ha]
      unfold chooseNextKey
      rw [if_pos ⟨by decide, hplants⟩]
    rw [hsel]

/-- C6 (witness): the amended theorem applied to the empty conversation,
where nothing was asked yet and the first question is "plants". -/
theorem C6_witness :
    (analyze ([] : List Message)).sunlight = none ∧
    (runAgent ([] : List Message)).nextQuestion =
      some (QUESTIONS QuestionKey.plants).text := by
  have h := C6_no_user_messages [] (by rfl)
  exact ⟨h.2.2.2.2.2.2.2.1,
    h.2.2.2.2.2.2.2.2.2.2 (by decide) (by decide)⟩

/-- C7: on "I love modern minimal clean lines" the "Modern Minimal" style
scores at least 3 (modern, minimal, clean), every other style scores 0,
and "Modern Minimal" ranks first in the summary style list. -/
theorem C7_style_scoring_example :
    3 ≤ (analyze exC7).styles Style.modernMinimal ∧
    (analyze exC7).styles Style.cottageRomantic = 0 ∧
    (analyze exC7).styles Style.mediterraneanDry = 0 ∧
    (analyze exC7).styles Style.japaneseZen = 0 ∧
    (analyze exC7).styles Style.desertXeriscape = 0 ∧
    (analyze exC7).styles Style.tropicalLush = 0 ∧
    (analyze exC7).styles Style.nativeWildlife = 0 ∧
    ((synthesizeSummary (analyze exC7)).styles).head? = some (S "Modern Minimal") := by
  decide

/-- C8: `analyze` depends only on the sequence of user-authored message
contents; assistant messages contribute nothing to the analysis. -/
theorem C8_analyze_user_messages_only (ms1 ms2 : List Message)
    (h : (ms1.filter (fun m => m.role == Role.user)).map (fun m => m.content) =
         (ms2.filter (fun m => m.role == Role.user)).map (fun m => m.content)) :
    analyze ms1 = analyze ms2 := by
  unfold analyze
  have hmap : ∀ ms : List Message,
      (ms.filter (fun m => m.role == Role.user)).map (fun m => lower m.content) =
        ((ms.filter (fun m => m.role == Role.user)).map (fun m => m.content)).map lower := by
    intro ms
    rw [List.map_map]
    rfl
  have huser : userText ms1 = userText ms2 := by
    unfold userText
    rw [hmap ms1, hmap ms2, h]
  rw [huser]

/-- C8 (witness): the theorem applied to two conversations with the same
single user message, one with an extra assistant message. -/
theorem C8_witness : analyze exC8a = analyze exC8b :=
  C8_analyze_user_messages_only exC8a exC8b (by decide)

/-- C9: whenever `runAgent` goes on to select a question (it is not done,
so fewer than 6 distinct keys were asked), the loop over the 8-entry
`QUESTION_ORDER` finds an unasked key — the trailing "constraints"
fallback of `chooseNextKey` is unreachable. -/
theorem C9_fallback_unreachable (ms : List Message)
    (h : (runAgent ms).done = false) :
    (QUESTION_ORDER.find? (fun k => decide (k ∉ getAskedKeys ms))).isSome = true := by
  have hc := not_done_of_runAgent_done_false ms h
  have hlen : (getAskedKeys ms).length < 6 := by
    rcases Nat.lt_or_ge (getAskedKeys ms).length 6 with h6 | h6
    · exact h6
    · exact absurd (Or.inr h6) hc
  cases hfind : QUESTION_ORDER.find? (fun k => decide (k ∉ getAskedKeys ms)) with
  | some k => rfl
  | none =>
    exfalso
    have hall := List.find?_eq_none.mp hfind
    have hsub : QUESTION_ORDER ⊆ getAskedKeys ms := by
      intro k hk
      have hk' := hall k hk
      simp at hk'
      exact hk'
    have hnodup : QUESTION_ORDER.Nodup := by decide
    have hle := (List.subperm_of_subset hnodup hsub).length_le
    have h8 : QUESTION_ORDER.length = 8 := rfl
    omega

/-- C9 (witness): the theorem applied to the empty conversation. -/
theorem C9_witness :
    (runAgent ([] : List Message)).done = false ∧
    (QUESTION_ORDER.find?
      (fun k => decide (k ∉ getAskedKeys ([] : List Message)))).isSome = true :=
  ⟨by decide, C9_fallback_unreachable [] (by decide)⟩

/-- C10: every disliked plant is simultaneously liked — a dislike phrase
such as "hate <synonym>" contains the bare synonym as a substring, and a
bare synonym occurrence alone satisfies the like test. -/
theorem C10_disliked_also_liked (ms : List Message) (p : Str)
    (h : p ∈ (analyze ms).dislikedPlants) : p ∈ (analyze ms).likedPlants := by
  have hd : (analyze ms).dislikedPlants = dislikedPlantsOf (userText ms) := rfl
  have hl : (analyze ms).likedPlants = likedPlantsOf (userText ms) := rfl
  rw [hd] at h
  rw [hl]
  unfold dislikedPlantsOf at h
  unfold likedPlantsOf
  rw [List.mem_map] at h ⊢
  obtain ⟨e, he, hcap⟩ := h
  rw [List.mem_filter] at he
  obtain ⟨hmem, hpred⟩ := he
  unfold dislikesEntry at hpred
  rw [List.any_eq_true] at hpred
  obtain ⟨w, hw, hor⟩ := hpred
  simp only [Bool.or_eq_true] at hor
  have hcw : containsStr (userText ms) w = true := by
    rcases hor with (h' | h') | h'
    · exact containsStr_trans h' (containsStr_of_append_left (S "dislike ") w)
    · exact containsStr_trans h' (containsStr_of_append_left (S "hate ") w)
    · exact containsStr_trans h' (containsStr_of_append_left (S "avoid ") w)
  refine ⟨e, ?_, hcap⟩
  rw [List.mem_filter]
  refine ⟨hmem, ?_⟩
  unfold likesEntry
  rw [List.any_eq_true]
  refine ⟨w, hw, ?_⟩
  rw [hcw]
  simp

/-- C10 (witness): the theorem applied to a user who says "i hate roses". -/
theorem C10_witness :
    (S "Roses") ∈ (analyze exC10).dislikedPlants ∧
    (S "Roses") ∈ (analyze exC10).likedPlants :=
  ⟨by decide, C10_disliked_also_liked exC10 (S "Roses") (by decide)⟩
